import Mathlib

/-!
Verification development for the Transaction-Management-System repository.

The ledger core lives in `src/routes/accounts.js` (deposit, withdraw,
transfer route handlers) and the registration route in
`src/routes/users.js`.  The Mongo document store is modelled as a list of
account records plus an append-only list of transaction records; `findOne`
becomes `List.find?` with the same filter, and a mongoose `save` on a
loaded document writes the document back over every stored record with the
same `_id`.  JavaScript numbers are modelled as exact rationals `ℚ`
(the spec treats the balance as a single plain numeric field), and Mongo
ObjectIds as `Nat`.  Route handlers become pure functions
`St → Resp × St`: every early `return <errorRes>` returns the untouched
state, and every `await doc.save()` threads an updated state.
-/

namespace TMS

/-- Transaction `type` enum from `src/models/transaction.js`:
`enum: ['deposit', 'withdrawal', 'transfer']`. -/
inductive TxnType where
  | deposit
  | withdrawal
  | transfer
deriving DecidableEq, Repr

/-- An `Account` document: `{ _id, userId, balance }`
(`id` stands for Mongo's `_id`). -/
structure Account where
  id : Nat
  userId : Nat
  balance : ℚ
deriving DecidableEq, Repr

/-- A `Transaction` document from `src/models/transaction.js`:
`{ userId, accountId, type, amount }` (timestamp/description omitted:
no claim mentions them). -/
structure Txn where
  userId : Nat
  accountId : Nat
  type : TxnType
  amount : ℚ
deriving DecidableEq, Repr

/-- The persistent store: the `accounts` and `transactions` collections. -/
structure St where
  accounts : List Account
  txns : List Txn
deriving DecidableEq, Repr

/-- Lookup `Account.findOne({ _id: accountId })` — the receiver lookup
in the transfer handler. -/
def findById (accountId : Nat) (s : St) : Option Account :=
  s.accounts.find? (fun a => a.id == accountId)

/-- Lookup `Account.findOne({ _id: accountId, userId })` — the
owned-account lookup used by deposit, withdraw and the sender side of
transfer. -/
def findOwned (accountId userId : Nat) (s : St) : Option Account :=
  s.accounts.find? (fun a => a.id == accountId && a.userId == userId)

/-- Effect of `await doc.save()` on a loaded account document: the
in-memory document overwrites the stored record with the same `_id`. -/
def saveAccount (doc : Account) (s : St) : St :=
  { s with accounts := s.accounts.map (fun a => if a.id == doc.id then doc else a) }

/-- Effect of `await transaction.save()`: appends a freshly constructed
transaction record to the collection. -/
def saveTxn (t : Txn) (s : St) : St :=
  { s with txns := s.txns ++ [t] }

/-- The distinct HTTP responses a ledger route can produce:
`successRes` (200), `clientErrorRes` with the express-validator error
array (400), `clientErrorRes` with `'Insufficient funds'` (400),
`notFoundRes` with its message (404), `serverErrorRes` (500). -/
inductive Resp (α : Type) where
  | success (v : α)
  | validationError
  | insufficientFunds
  | notFound (msg : String)
  | serverError
deriving DecidableEq, Repr

/-- Whether a response is a 200 `successRes`. -/
def Resp.isSuccess : Resp α → Bool
  | .success _ => true
  | _ => false

/-- Handler for `POST /accounts/:accountId/deposit` from `src/routes/accounts.js`.
The validator chain `body('amount').isNumeric().isFloat({ gt: 0 })`
becomes the `amount ≤ 0` guard (amounts are rationals by type).
`failTxnWrite` models the store throwing on the `transaction.save()`
call: the `catch` block then answers `serverErrorRes` while the already
persisted balance write stays (no rollback code exists in the source).
The plain handler is this function with `failTxnWrite = false`. -/
def depositF (failTxnWrite : Bool) (userId accountId : Nat) (amount : ℚ)
    (s : St) : Resp Account × St :=
  if amount ≤ 0 then (.validationError, s)
  else
    match findOwned accountId userId s with
    | none => (.notFound "Account not found", s)
    | some account =>
      let account := { account with balance := account.balance + amount }
      let s := saveAccount account s
      if failTxnWrite then (.serverError, s)
      else
        let s := saveTxn { userId, accountId := account.id, type := .deposit, amount } s
        (.success account, s)

/-- The deposit handler with all store writes succeeding. -/
def deposit (userId accountId : Nat) (amount : ℚ) (s : St) : Resp Account × St :=
  depositF false userId accountId amount s

/-- Handler for `POST /accounts/:accountId/withdraw` from `src/routes/accounts.js`:
validator guard, owned-account lookup, `'Insufficient funds'` check
strictly before any mutation, then balance decrement, save, and a
`withdrawal` transaction record. -/
def withdrawF (failTxnWrite : Bool) (userId accountId : Nat) (amount : ℚ)
    (s : St) : Resp Account × St :=
  if amount ≤ 0 then (.validationError, s)
  else
    match findOwned accountId userId s with
    | none => (.notFound "Account not found", s)
    | some account =>
      if account.balance < amount then (.insufficientFunds, s)
      else
        let account := { account with balance := account.balance - amount }
        let s := saveAccount account s
        if failTxnWrite then (.serverError, s)
        else
          let s := saveTxn { userId, accountId := account.id, type := .withdrawal, amount } s
          (.success account, s)

/-- The withdraw handler with all store writes succeeding. -/
def withdraw (userId accountId : Nat) (amount : ℚ) (s : St) : Resp Account × St :=
  withdrawF false userId accountId amount s

/-- Handler for `POST /accounts/:accountId/transfer` from `src/routes/accounts.js`.
Sender is loaded by `{ _id: accountId, userId }`, receiver by
`{ _id: receiverAccountId }` alone; the two lookups run before either
null check, sender-not-found is reported first.  On success the two
in-memory documents are mutated, saved sender first, then the two
`transfer` legs are appended (negative amount under the caller's userId
for the sender, positive amount under the receiver account's own userId),
and both in-memory documents are returned.  `failTxnWrite` models the
first `transaction.save()` throwing after both balance writes landed. -/
def transferF (failTxnWrite : Bool) (userId accountId receiverAccountId : Nat)
    (amount : ℚ) (s : St) : Resp (Account × Account) × St :=
  if amount ≤ 0 then (.validationError, s)
  else
    let senderAccount? := findOwned accountId userId s
    let receiverAccount? := findById receiverAccountId s
    match senderAccount? with
    | none => (.notFound "Sender account not found", s)
    | some senderAccount =>
      match receiverAccount? with
      | none => (.notFound "Receiver account not found", s)
      | some receiverAccount =>
        if senderAccount.balance < amount then (.insufficientFunds, s)
        else
          let senderAccount := { senderAccount with balance := senderAccount.balance - amount }
          let receiverAccount := { receiverAccount with balance := receiverAccount.balance + amount }
          let s := saveAccount senderAccount s
          let s := saveAccount receiverAccount s
          if failTxnWrite then (.serverError, s)
          else
            let s := saveTxn { userId, accountId := senderAccount.id,
                               type := .transfer, amount := -amount } s
            let s := saveTxn { userId := receiverAccount.userId, accountId := receiverAccount.id,
                               type := .transfer, amount } s
            (.success (senderAccount, receiverAccount), s)

/-- The transfer handler with all store writes succeeding. -/
def transfer (userId accountId receiverAccountId : Nat) (amount : ℚ)
    (s : St) : Resp (Account × Account) × St :=
  transferF false userId accountId receiverAccountId amount s

/-- A ledger operation, for stating properties of operation sequences. -/
inductive Op where
  | deposit (userId accountId : Nat) (amount : ℚ)
  | withdraw (userId accountId : Nat) (amount : ℚ)
  | transfer (userId accountId receiverAccountId : Nat) (amount : ℚ)

/-- Runs one operation and keeps the resulting state only when the
handler answered `successRes`. -/
def applyOp (op : Op) (s : St) : Option St :=
  match op with
  | .deposit u a x =>
      let r := deposit u a x s
      if r.1.isSuccess then some r.2 else none
  | .withdraw u a x =>
      let r := withdraw u a x s
      if r.1.isSuccess then some r.2 else none
  | .transfer u a b x =>
      let r := transfer u a b x s
      if r.1.isSuccess then some r.2 else none

/-- Runs a sequence of operations, each of which must succeed,
one completing before the next starts. -/
def runOps : List Op → St → Option St
  | [], s => some s
  | op :: ops, s => (applyOp op s).bind (runOps ops)

/-- A `User` document as built by the register route:
`{ username, email, hashedPassword }`. -/
structure User where
  username : String
  email : String
  hashedPassword : String
deriving DecidableEq, Repr

/-- Responses of `POST /users/register`: `createdRes` (201 with the
generated username), `clientErrorRes` with the validator errors (400),
`conflictErrorRes` with `'Email already exists'` (409), and
`serverErrorRes` (500). -/
inductive RegisterResp where
  | created (username : String)
  | validationError
  | conflict
  | serverError
deriving DecidableEq, Repr

/-- Handler for `POST /users/register` from `src/routes/users.js`.
Here `emailValid` is the outcome of the external
`check('email').isEmail()` validator, the password rule is
`isLength({ min: 6 })`, `hash` stands for the external
`bcrypt.hash(·, 10)` and `suffix` for the random three-digit value
`Math.floor(100 + Math.random() * 900)`; `email.split('@')[0]` is the
part of the email before the first `'@'`.  After `newUser.save()` the
source calls `createdRes(res, { message, username })`, but `createdRes`
is neither defined in the file nor among the names destructured from
`require('../util/response')` (only successRes, unauthorizedRes,
clientErrorRes, conflictErrorRes, serverErrorRes are), so the call
raises a ReferenceError that the `catch` block turns into
`serverErrorRes` — after the user document has already been saved. -/
def register (emailValid : Bool) (email password : String)
    (hash : String → String) (suffix : Nat)
    (users : List User) : RegisterResp × List User :=
  if !emailValid || password.length < 6 then (.validationError, users)
  else
    match users.find? (fun u => u.email == email) with
    | some _ => (.conflict, users)
    | none =>
      let username := String.mk (email.data.takeWhile (fun c => c != '@')) ++ toString suffix
      let newUser : User := { username, email, hashedPassword := hash password }
      let users := users ++ [newUser]
      (.serverError, users)


theorem findById_id_eq {i : Nat} {s : St} {a : Account}
    (h : findById i s = some a) : a.id = i := by
  unfold findById at h
  have h' := List.find?_some h
  simpa using h'

theorem findOwned_spec {i u : Nat} {s : St} {a : Account}
    (h : findOwned i u s = some a) : a.id = i ∧ a.userId = u := by
  unfold findOwned at h
  have h' := List.find?_some h
  simpa using h'

theorem findById_mem {i : Nat} {s : St} {a : Account}
    (h : findById i s = some a) : a ∈ s.accounts :=
  List.mem_of_find?_eq_some h

theorem findOwned_mem {i u : Nat} {s : St} {a : Account}
    (h : findOwned i u s = some a) : a ∈ s.accounts :=
  List.mem_of_find?_eq_some h

theorem findById_saveAccount (i : Nat) (doc : Account) (s : St) :
    findById i (saveAccount doc s)
      = (findById i s).map (fun a => if a.id == doc.id then doc else a) := by
  have hp : ((fun a : Account => a.id == i) ∘ (fun a => if a.id == doc.id then doc else a))
      = (fun a : Account => a.id == i) := by
    funext a
    by_cases h : a.id = doc.id
    · simp [Function.comp, h]
    · simp [Function.comp, h]
  unfold findById saveAccount
  rw [List.find?_map, hp]

theorem findById_saveAccount_ne {i : Nat} {doc : Account} (s : St) (h : doc.id ≠ i) :
    findById i (saveAccount doc s) = findById i s := by
  rw [findById_saveAccount]
  cases hfind : findById i s with
  | none => rfl
  | some a =>
    have ha : a.id = i := findById_id_eq hfind
    have : a.id ≠ doc.id := by rw [ha]; exact fun hc => h hc.symm
    simp [this]

theorem findById_saveAccount_self {i : Nat} {doc : Account} (s : St)
    (hsome : (findById i s).isSome) (hid : doc.id = i) :
    findById i (saveAccount doc s) = some doc := by
  rw [findById_saveAccount]
  cases hfind : findById i s with
  | none => rw [hfind] at hsome; simp at hsome
  | some a =>
    have ha : a.id = i := findById_id_eq hfind
    simp [ha, hid]

theorem find?_owned_of_find?_id {l : List Account} {a : Account} {i u : Nat}
    (h : l.find? (fun b => b.id == i) = some a) (hu : a.userId = u) :
    l.find? (fun b => b.id == i && b.userId == u) = some a := by
  induction l with
  | nil => simp [List.find?] at h
  | cons b l ih =>
    by_cases hb : b.id = i
    · rw [List.find?_cons_of_pos _ (by simp [hb])] at h
      have hba : b = a := by simpa using h
      subst hba
      rw [List.find?_cons_of_pos _ (by simp [hb, hu])]
    · rw [List.find?_cons_of_neg _ (by simp [hb])] at h
      rw [List.find?_cons_of_neg _ (by simp [hb])]
      exact ih h

theorem findOwned_of_findById {i u : Nat} {s : St} {a : Account}
    (h : findById i s = some a) (hu : a.userId = u) :
    findOwned i u s = some a :=
  find?_owned_of_find?_id h hu

theorem findById_isSome_of_mem {i : Nat} {s : St} {a : Account}
    (ha : a ∈ s.accounts) (hid : a.id = i) : (findById i s).isSome := by
  unfold findById
  rw [List.find?_isSome]
  exact ⟨a, ha, by simp [hid]⟩

theorem saveTxn_accounts (t : Txn) (s : St) : (saveTxn t s).accounts = s.accounts := rfl

theorem saveAccount_txns (doc : Account) (s : St) : (saveAccount doc s).txns = s.txns := rfl

theorem saveTxn_txns (t : Txn) (s : St) : (saveTxn t s).txns = s.txns ++ [t] := rfl

theorem findById_saveTxn (i : Nat) (t : Txn) (s : St) :
    findById i (saveTxn t s) = findById i s := rfl

theorem mem_saveAccount {b doc : Account} {s : St}
    (hb : b ∈ (saveAccount doc s).accounts) : b = doc ∨ b ∈ s.accounts := by
  obtain ⟨a, ha, hga⟩ := List.mem_map.1 hb
  by_cases h : a.id = doc.id
  · left
    rw [← hga, if_pos (by simpa using h)]
  · right
    rw [← hga, if_neg (by simpa using h)]
    exact ha

theorem findById_isSome_saveAccount {i : Nat} (doc : Account) (s : St) :
    (findById i (saveAccount doc s)).isSome = (findById i s).isSome := by
  rw [findById_saveAccount]
  cases findById i s <;> rfl

theorem depositF_invalid (f : Bool) (uid aid : Nat) {x : ℚ} (s : St) (hx : x ≤ 0) :
    depositF f uid aid x s = (.validationError, s) := by
  simp [depositF, hx]

theorem depositF_notFound (f : Bool) {uid aid : Nat} {x : ℚ} {s : St}
    (hx : ¬ x ≤ 0) (hs : findOwned aid uid s = none) :
    depositF f uid aid x s = (.notFound "Account not found", s) := by
  simp [depositF, hx, hs]

theorem deposit_success_state {uid aid : Nat} {x : ℚ} {s : St} {acc : Account}
    (hx : ¬ x ≤ 0) (hs : findOwned aid uid s = some acc) :
    deposit uid aid x s =
      (.success { acc with balance := acc.balance + x },
       saveTxn { userId := uid, accountId := acc.id, type := .deposit, amount := x }
         (saveAccount { acc with balance := acc.balance + x } s)) := by
  simp [deposit, depositF, hx, hs]

theorem depositF_txnFail {uid aid : Nat} {x : ℚ} {s : St} {acc : Account}
    (hx : ¬ x ≤ 0) (hs : findOwned aid uid s = some acc) :
    depositF true uid aid x s =
      (.serverError, saveAccount { acc with balance := acc.balance + x } s) := by
  simp [depositF, hx, hs]

theorem withdrawF_insufficient (f : Bool) {uid aid : Nat} {x : ℚ} {s : St} {acc : Account}
    (hx : ¬ x ≤ 0) (hs : findOwned aid uid s = some acc) (hlt : acc.balance < x) :
    withdrawF f uid aid x s = (.insufficientFunds, s) := by
  simp [withdrawF, hx, hs, hlt]

theorem withdraw_success_state {uid aid : Nat} {x : ℚ} {s : St} {acc : Account}
    (hx : ¬ x ≤ 0) (hs : findOwned aid uid s = some acc) (hge : ¬ acc.balance < x) :
    withdraw uid aid x s =
      (.success { acc with balance := acc.balance - x },
       saveTxn { userId := uid, accountId := acc.id, type := .withdrawal, amount := x }
         (saveAccount { acc with balance := acc.balance - x } s)) := by
  simp [withdraw, withdrawF, hx, hs, hge]

theorem withdrawF_txnFail {uid aid : Nat} {x : ℚ} {s : St} {acc : Account}
    (hx : ¬ x ≤ 0) (hs : findOwned aid uid s = some acc) (hge : ¬ acc.balance < x) :
    withdrawF true uid aid x s =
      (.serverError, saveAccount { acc with balance := acc.balance - x } s) := by
  simp [withdrawF, hx, hs, hge]

theorem transferF_senderNotFound (f : Bool) {uid aid rid : Nat} {x : ℚ} {s : St}
    (hx : ¬ x ≤ 0) (hs : findOwned aid uid s = none) :
    transferF f uid aid rid x s = (.notFound "Sender account not found", s) := by
  simp [transferF, hx, hs]

theorem transferF_receiverNotFound (f : Bool) {uid aid rid : Nat} {x : ℚ} {s : St}
    {sender : Account}
    (hx : ¬ x ≤ 0) (hs : findOwned aid uid s = some sender) (hr : findById rid s = none) :
    transferF f uid aid rid x s = (.notFound "Receiver account not found", s) := by
  simp [transferF, hx, hs, hr]

theorem transferF_insufficient (f : Bool) {uid aid rid : Nat} {x : ℚ} {s : St}
    {sender receiver : Account}
    (hx : ¬ x ≤ 0) (hs : findOwned aid uid s = some sender)
    (hr : findById rid s = some receiver) (hlt : sender.balance < x) :
    transferF f uid aid rid x s = (.insufficientFunds, s) := by
  simp [transferF, hx, hs, hr, hlt]

theorem transfer_success_state {uid aid rid : Nat} {x : ℚ} {s : St}
    {sender receiver : Account}
    (hx : ¬ x ≤ 0) (hs : findOwned aid uid s = some sender)
    (hr : findById rid s = some receiver) (hge : ¬ sender.balance < x) :
    transfer uid aid rid x s =
      (.success ({ sender with balance := sender.balance - x },
                 { receiver with balance := receiver.balance + x }),
       saveTxn { userId := receiver.userId, accountId := receiver.id,
                 type := .transfer, amount := x }
         (saveTxn { userId := uid, accountId := sender.id,
                    type := .transfer, amount := -x }
           (saveAccount { receiver with balance := receiver.balance + x }
             (saveAccount { sender with balance := sender.balance - x } s)))) := by
  simp [transfer, transferF, hx, hs, hr, hge]

theorem transferF_txnFail {uid aid rid : Nat} {x : ℚ} {s : St}
    {sender receiver : Account}
    (hx : ¬ x ≤ 0) (hs : findOwned aid uid s = some sender)
    (hr : findById rid s = some receiver) (hge : ¬ sender.balance < x) :
    transferF true uid aid rid x s =
      (.serverError,
       saveAccount { receiver with balance := receiver.balance + x }
         (saveAccount { sender with balance := sender.balance - x } s)) := by
  simp [transferF, hx, hs, hr, hge]

/-- C1: a successful transfer between two distinct existing accounts,
with the sender owned by the caller and sender.balance ≥ amount,
persists sender.balance - amount and receiver.balance + amount, so the
sum of the two persisted balances is unchanged. -/
theorem transfer_conserves_balance_sum
    (uid aid rid : Nat) (x : ℚ) (s : St) (sender receiver : Account)
    (hs : findOwned aid uid s = some sender)
    (hr : findById rid s = some receiver)
    (hne : aid ≠ rid)
    (hx : 0 < x)
    (hbal : x ≤ sender.balance) :
    (transfer uid aid rid x s).1
        = .success ({ sender with balance := sender.balance - x },
                    { receiver with balance := receiver.balance + x }) ∧
    findById aid (transfer uid aid rid x s).2
        = some { sender with balance := sender.balance - x } ∧
    findById rid (transfer uid aid rid x s).2
        = some { receiver with balance := receiver.balance + x } ∧
    (sender.balance - x) + (receiver.balance + x) = sender.balance + receiver.balance := by
  have hx' : ¬ x ≤ 0 := not_le.mpr hx
  have hge : ¬ sender.balance < x := not_lt.mpr hbal
  have hsid : sender.id = aid := (findOwned_spec hs).1
  have hrid : receiver.id = rid := findById_id_eq hr
  have hsome0 : (findById aid s).isSome := findById_isSome_of_mem (findOwned_mem hs) hsid
  rw [transfer_success_state hx' hs hr hge]
  refine ⟨rfl, ?_, ?_, by ring⟩
  · rw [findById_saveTxn, findById_saveTxn]
    have h1 : ({ receiver with balance := receiver.balance + x } : Account).id ≠ aid := by
      show receiver.id ≠ aid
      rw [hrid]
      exact Ne.symm hne
    rw [findById_saveAccount_ne _ h1]
    exact findById_saveAccount_self _ hsome0 hsid
  · rw [findById_saveTxn, findById_saveTxn]
    apply findById_saveAccount_self
    · have h2 : ({ sender with balance := sender.balance - x } : Account).id ≠ rid := by
        show sender.id ≠ rid
        rw [hsid]
        exact hne
      rw [findById_saveAccount_ne _ h2, hr]
      rfl
    · exact hrid

/-- C10: a transfer whose receiverAccountId equals the sender's own
accountId (owner's self-transfer, 0 < amount ≤ balance) succeeds, and
because sender and receiver are two independent copies of the same
record and the receiver's save lands last, the persisted balance ends
at balance + amount. -/
theorem self_transfer_adds_amount
    (uid aid : Nat) (x : ℚ) (s : St) (acc : Account)
    (hacc : findById aid s = some acc)
    (hu : acc.userId = uid)
    (hx : 0 < x)
    (hbal : x ≤ acc.balance) :
    (transfer uid aid aid x s).1
        = .success ({ acc with balance := acc.balance - x },
                    { acc with balance := acc.balance + x }) ∧
    (findById aid (transfer uid aid aid x s).2).map Account.balance
        = some (acc.balance + x) := by
  have hx' : ¬ x ≤ 0 := not_le.mpr hx
  have hge : ¬ acc.balance < x := not_lt.mpr hbal
  have hs : findOwned aid uid s = some acc := findOwned_of_findById hacc hu
  have hid : acc.id = aid := findById_id_eq hacc
  rw [transfer_success_state hx' hs hacc hge]
  refine ⟨rfl, ?_⟩
  have hsome1 : (findById aid (saveAccount { acc with balance := acc.balance - x } s)).isSome := by
    rw [findById_isSome_saveAccount, hacc]
    rfl
  have h3 : findById aid
      (saveAccount { acc with balance := acc.balance + x }
        (saveAccount { acc with balance := acc.balance - x } s))
      = some { acc with balance := acc.balance + x } :=
    findById_saveAccount_self _ hsome1 hid
  rw [findById_saveTxn, findById_saveTxn, h3]
  rfl

/-- C4: a successful transfer appends exactly two transaction records,
both of type transfer: one with amount -x, the sender's accountId and
the caller's userId, and one with amount +x, the receiver's accountId
and the receiver account's own userId; and it returns both updated
accounts. -/
theorem transfer_appends_two_legs
    (uid aid rid : Nat) (x : ℚ) (s : St) (sender receiver : Account)
    (hs : findOwned aid uid s = some sender)
    (hr : findById rid s = some receiver)
    (hx : 0 < x)
    (hbal : x ≤ sender.balance) :
    (transfer uid aid rid x s).2.txns
        = s.txns ++ [{ userId := uid, accountId := sender.id, type := .transfer, amount := -x },
                     { userId := receiver.userId, accountId := receiver.id,
                       type := .transfer, amount := x }] ∧
    (transfer uid aid rid x s).1
        = .success ({ sender with balance := sender.balance - x },
                    { receiver with balance := receiver.balance + x }) := by
  rw [transfer_success_state (not_le.mpr hx) hs hr (not_lt.mpr hbal)]
  constructor
  · show (s.txns ++ [_]) ++ [_] = _
    rw [List.append_assoc]
    rfl
  · rfl

/-- C3: a withdraw on an existing owned account with amount > balance
(balances are non-negative per the store invariant) answers the 400
response with message 'Insufficient funds', leaves the store — hence the
balance — unchanged, and creates no transaction record. -/
theorem withdraw_insufficient_funds_no_mutation
    (uid aid : Nat) (x : ℚ) (s : St) (acc : Account)
    (hs : findOwned aid uid s = some acc)
    (hb : 0 ≤ acc.balance)
    (hlt : acc.balance < x) :
    (withdraw uid aid x s).1 = .insufficientFunds ∧
    (withdraw uid aid x s).2 = s ∧
    (withdraw uid aid x s).2.txns = s.txns := by
  have hx' : ¬ x ≤ 0 := not_le.mpr (lt_of_le_of_lt hb hlt)
  have hw : withdraw uid aid x s = (.insufficientFunds, s) :=
    withdrawF_insufficient false hx' hs hlt
  rw [hw]
  exact ⟨rfl, rfl, rfl⟩

/-- C5: for amount > 0, a deposit on an existing account owned by the
caller persists balance + amount, appends exactly one deposit
transaction with that amount, and returns the updated account; if the
account is absent or not owned by the caller it answers the 404
'Account not found' response with no write at all. -/
theorem deposit_updates_or_rejects
    (uid aid : Nat) (x : ℚ) (s : St)
    (hx : 0 < x) :
    (∀ acc, findOwned aid uid s = some acc →
      (deposit uid aid x s).1 = .success { acc with balance := acc.balance + x } ∧
      findById aid (deposit uid aid x s).2 = some { acc with balance := acc.balance + x } ∧
      (deposit uid aid x s).2.txns
          = s.txns ++ [{ userId := uid, accountId := acc.id, type := .deposit, amount := x }]) ∧
    (findOwned aid uid s = none →
      deposit uid aid x s = (.notFound "Account not found", s)) := by
  have hx' : ¬ x ≤ 0 := not_le.mpr hx
  constructor
  · intro acc hs
    have hsid : acc.id = aid := (findOwned_spec hs).1
    have hsome0 : (findById aid s).isSome := findById_isSome_of_mem (findOwned_mem hs) hsid
    rw [deposit_success_state hx' hs]
    refine ⟨rfl, ?_, rfl⟩
    have h1 : findById aid (saveAccount { acc with balance := acc.balance + x } s)
        = some { acc with balance := acc.balance + x } :=
      findById_saveAccount_self _ hsome0 hsid
    rw [findById_saveTxn, h1]
  · intro hnone
    exact depositF_notFound false hx' hnone

/-- C6: transfer looks the sender up by (id, caller userId) and the
receiver by id only; a failed sender lookup yields the distinct 404
'Sender account not found' with the store untouched, a failed receiver
lookup yields 404 'Receiver account not found' with the store untouched,
and with both found (no ownership condition on the receiver) and
sufficient funds the transfer succeeds. -/
theorem transfer_lookup_rules
    (uid aid rid : Nat) (x : ℚ) (s : St) (hx : 0 < x) :
    (findOwned aid uid s = none →
      transfer uid aid rid x s = (.notFound "Sender account not found", s)) ∧
    (∀ sender, findOwned aid uid s = some sender → findById rid s = none →
      transfer uid aid rid x s = (.notFound "Receiver account not found", s)) ∧
    (∀ sender receiver, findOwned aid uid s = some sender →
      findById rid s = some receiver → x ≤ sender.balance →
      (transfer uid aid rid x s).1
        = .success ({ sender with balance := sender.balance - x },
                    { receiver with balance := receiver.balance + x })) := by
  have hx' : ¬ x ≤ 0 := not_le.mpr hx
  refine ⟨fun hnone => transferF_senderNotFound false hx' hnone,
          fun sender hs hr => transferF_receiverNotFound false hx' hs hr,
          fun sender receiver hs hr hbal => ?_⟩
  rw [transfer_success_state hx' hs hr (not_lt.mpr hbal)]

/-- C8: on an account with non-negative balance b, a successful
Deposit(x) immediately followed by Withdraw(x), x > 0, leaves the
persisted balance exactly b: the operations are exact inverses. -/
theorem deposit_withdraw_roundtrip
    (uid aid : Nat) (x : ℚ) (s : St) (acc : Account)
    (hs : findOwned aid uid s = some acc)
    (hb : 0 ≤ acc.balance)
    (hx : 0 < x) :
    (deposit uid aid x s).1.isSuccess = true ∧
    (withdraw uid aid x (deposit uid aid x s).2).1.isSuccess = true ∧
    (findById aid (withdraw uid aid x (deposit uid aid x s).2).2).map Account.balance
        = some acc.balance := by
  have hx' : ¬ x ≤ 0 := not_le.mpr hx
  have hsid : acc.id = aid := (findOwned_spec hs).1
  have huid : acc.userId = uid := (findOwned_spec hs).2
  have hsome0 : (findById aid s).isSome := findById_isSome_of_mem (findOwned_mem hs) hsid
  have hd := deposit_success_state hx' hs
  have hfid1 : findById aid (deposit uid aid x s).2 = some { acc with balance := acc.balance + x } := by
    rw [hd, findById_saveTxn]
    exact findById_saveAccount_self _ hsome0 hsid
  have hfo1 : findOwned aid uid (deposit uid aid x s).2 = some { acc with balance := acc.balance + x } :=
    findOwned_of_findById hfid1 huid
  have hge : ¬ ({ acc with balance := acc.balance + x } : Account).balance < x := by
    show ¬ acc.balance + x < x
    exact not_lt.mpr (le_add_of_nonneg_left hb)
  have hw := withdraw_success_state hx' hfo1 hge
  have hsome1 : (findById aid (deposit uid aid x s).2).isSome := by
    rw [hfid1]
    rfl
  refine ⟨by rw [hd]; rfl, by rw [hw]; rfl, ?_⟩
  have h2 : findById aid (withdraw uid aid x (deposit uid aid x s).2).2
      = some { acc with balance := acc.balance + x - x } := by
    rw [hw, findById_saveTxn]
    exact findById_saveAccount_self _ hsome1 hsid
  rw [h2]
  show some (acc.balance + x - x) = some acc.balance
  rw [add_sub_cancel_right]

/-- C9: in deposit, withdraw and transfer, if the balance write
succeeds and the subsequent transaction-record write fails, the
handler answers the 500 Internal error response while the mutated
balance stays persisted and no audit record is appended — nothing is
rolled back. -/
theorem txn_write_failure_keeps_balance
    (uid aid rid : Nat) (x : ℚ) (s : St) (hx : 0 < x) :
    (∀ acc, findOwned aid uid s = some acc →
      (depositF true uid aid x s).1 = .serverError ∧
      (depositF true uid aid x s).2.txns = s.txns ∧
      findById aid (depositF true uid aid x s).2
          = some { acc with balance := acc.balance + x }) ∧
    (∀ acc, findOwned aid uid s = some acc → x ≤ acc.balance →
      (withdrawF true uid aid x s).1 = .serverError ∧
      (withdrawF true uid aid x s).2.txns = s.txns ∧
      findById aid (withdrawF true uid aid x s).2
          = some { acc with balance := acc.balance - x }) ∧
    (∀ sender receiver, findOwned aid uid s = some sender →
      findById rid s = some receiver → x ≤ sender.balance → aid ≠ rid →
      (transferF true uid aid rid x s).1 = .serverError ∧
      (transferF true uid aid rid x s).2.txns = s.txns ∧
      findById aid (transferF true uid aid rid x s).2
          = some { sender with balance := sender.balance - x } ∧
      findById rid (transferF true uid aid rid x s).2
          = some { receiver with balance := receiver.balance + x }) := by
  have hx' : ¬ x ≤ 0 := not_le.mpr hx
  refine ⟨fun acc hs => ?_, fun acc hs hbal => ?_, fun sender receiver hs hr hbal hne => ?_⟩
  · have hsid : acc.id = aid := (findOwned_spec hs).1
    have hsome0 : (findById aid s).isSome := findById_isSome_of_mem (findOwned_mem hs) hsid
    rw [depositF_txnFail hx' hs]
    exact ⟨rfl, rfl, findById_saveAccount_self _ hsome0 hsid⟩
  · have hsid : acc.id = aid := (findOwned_spec hs).1
    have hsome0 : (findById aid s).isSome := findById_isSome_of_mem (findOwned_mem hs) hsid
    rw [withdrawF_txnFail hx' hs (not_lt.mpr hbal)]
    exact ⟨rfl, rfl, findById_saveAccount_self _ hsome0 hsid⟩
  · have hsid : sender.id = aid := (findOwned_spec hs).1
    have hrid : receiver.id = rid := findById_id_eq hr
    have hsome0 : (findById aid s).isSome := findById_isSome_of_mem (findOwned_mem hs) hsid
    rw [transferF_txnFail hx' hs hr (not_lt.mpr hbal)]
    refine ⟨rfl, rfl, ?_, ?_⟩
    · have h1 : ({ receiver with balance := receiver.balance + x } : Account).id ≠ aid := by
        show receiver.id ≠ aid
        rw [hrid]
        exact Ne.symm hne
      rw [findById_saveAccount_ne _ h1]
      exact findById_saveAccount_self _ hsome0 hsid
    · apply findById_saveAccount_self
      · have h2 : ({ sender with balance := sender.balance - x } : Account).id ≠ rid := by
          show sender.id ≠ rid
          rw [hsid]
          exact hne
        rw [findById_saveAccount_ne _ h2, hr]
        rfl
      · exact hrid

theorem accounts_ids_saveAccount (doc : Account) (s : St) :
    (saveAccount doc s).accounts.map Account.id = s.accounts.map Account.id := by
  show (s.accounts.map _).map Account.id = s.accounts.map Account.id
  rw [List.map_map]
  have hfun : (Account.id ∘ fun a => if a.id == doc.id then doc else a) = Account.id := by
    funext a
    by_cases h : a.id = doc.id
    · simp [Function.comp, h]
    · simp [Function.comp, h]
  rw [hfun]

theorem findById_isSome_iff {i : Nat} {s : St} :
    (findById i s).isSome ↔ i ∈ s.accounts.map Account.id := by
  unfold findById
  rw [List.find?_isSome, List.mem_map]
  constructor
  · rintro ⟨a, ha, hp⟩
    exact ⟨a, ha, by simpa using hp⟩
  · rintro ⟨a, ha, hp⟩
    exact ⟨a, ha, by simp [hp]⟩

theorem applyOp_preserves {op : Op} {s s' : St} (h : applyOp op s = some s') :
    s'.accounts.map Account.id = s.accounts.map Account.id ∧
    ((∀ a ∈ s.accounts, 0 ≤ a.balance) → ∀ a ∈ s'.accounts, 0 ≤ a.balance) := by
  cases op with
  | deposit u i x =>
    by_cases hx : x ≤ 0
    · simp [applyOp, deposit, depositF_invalid false u i s hx, Resp.isSuccess] at h
    · cases hfo : findOwned i u s with
      | none =>
        simp [applyOp, deposit, depositF_notFound false hx hfo, Resp.isSuccess] at h
      | some acc =>
        have hd := deposit_success_state hx hfo
        rw [show deposit u i x s = depositF false u i x s from rfl] at hd
        simp [applyOp, deposit, hd, Resp.isSuccess] at h
        subst h
        constructor
        · rw [saveTxn_accounts, accounts_ids_saveAccount]
        · intro hall b hb
          rw [saveTxn_accounts] at hb
          rcases mem_saveAccount hb with rfl | hmem
          · show 0 ≤ acc.balance + x
            have h0 : 0 ≤ acc.balance := hall acc (findOwned_mem hfo)
            have h1 : 0 < x := not_le.mp hx
            linarith
          · exact hall b hmem
  | withdraw u i x =>
    by_cases hx : x ≤ 0
    · simp [applyOp, withdraw, depositF_invalid, Resp.isSuccess,
        show withdrawF false u i x s = (.validationError, s) from by simp [withdrawF, hx]] at h
    · cases hfo : findOwned i u s with
      | none =>
        simp [applyOp, withdraw, Resp.isSuccess,
          show withdrawF false u i x s = (.notFound "Account not found", s) from by
            simp [withdrawF, hx, hfo]] at h
      | some acc =>
        by_cases hlt : acc.balance < x
        · simp [applyOp, withdraw, withdrawF_insufficient false hx hfo hlt, Resp.isSuccess] at h
        · have hw := withdraw_success_state hx hfo hlt
          rw [show withdraw u i x s = withdrawF false u i x s from rfl] at hw
          simp [applyOp, withdraw, hw, Resp.isSuccess] at h
          subst h
          constructor
          · rw [saveTxn_accounts, accounts_ids_saveAccount]
          · intro hall b hb
            rw [saveTxn_accounts] at hb
            rcases mem_saveAccount hb with rfl | hmem
            · show 0 ≤ acc.balance - x
              have h1 : x ≤ acc.balance := not_lt.mp hlt
              linarith
            · exact hall b hmem
  | transfer u i r x =>
    by_cases hx : x ≤ 0
    · simp [applyOp, transfer, Resp.isSuccess,
        show transferF false u i r x s = (.validationError, s) from by simp [transferF, hx]] at h
    · cases hfo : findOwned i u s with
      | none =>
        simp [applyOp, transfer, transferF_senderNotFound false hx hfo, Resp.isSuccess] at h
      | some sender =>
        cases hfr : findById r s with
        | none =>
          simp [applyOp, transfer, transferF_receiverNotFound false hx hfo hfr, Resp.isSuccess] at h
        | some receiver =>
          by_cases hlt : sender.balance < x
          · simp [applyOp, transfer, transferF_insufficient false hx hfo hfr hlt,
              Resp.isSuccess] at h
          · have ht := transfer_success_state hx hfo hfr hlt
            rw [show transfer u i r x s = transferF false u i r x s from rfl] at ht
            simp [applyOp, transfer, ht, Resp.isSuccess] at h
            subst h
            constructor
            · rw [saveTxn_accounts, saveTxn_accounts, accounts_ids_saveAccount,
                accounts_ids_saveAccount]
            · intro hall b hb
              rw [saveTxn_accounts, saveTxn_accounts] at hb
              rcases mem_saveAccount hb with rfl | hb1
              · show 0 ≤ receiver.balance + x
                have h0 : 0 ≤ receiver.balance := hall receiver (findById_mem hfr)
                have h1 : 0 < x := not_le.mp hx
                linarith
              · rcases mem_saveAccount hb1 with rfl | hmem
                · show 0 ≤ sender.balance - x
                  have h1 : x ≤ sender.balance := not_lt.mp hlt
                  linarith
                · exact hall b hmem

theorem runOps_preserves {ops : List Op} {s s' : St} (h : runOps ops s = some s') :
    s'.accounts.map Account.id = s.accounts.map Account.id ∧
    ((∀ a ∈ s.accounts, 0 ≤ a.balance) → ∀ a ∈ s'.accounts, 0 ≤ a.balance) := by
  induction ops generalizing s with
  | nil =>
    have hss : s = s' := by simpa [runOps] using h
    subst hss
    exact ⟨rfl, fun hall => hall⟩
  | cons op ops ih =>
    rw [runOps] at h
    cases happ : applyOp op s with
    | none => rw [happ] at h; simp at h
    | some s1 =>
      rw [happ] at h
      have h2 : runOps ops s1 = some s' := h
      obtain ⟨hids1, hnn1⟩ := applyOp_preserves happ
      obtain ⟨hids2, hnn2⟩ := ih h2
      exact ⟨hids2.trans hids1, fun hall => hnn2 (hnn1 hall)⟩

/-- C2: starting from a store whose accounts all have non-negative
balances, after any finite sequence of successful deposit, withdraw and
transfer operations (run sequentially, each completing before the next),
every account present at the start is still present and its balance is
≥ 0.  The all-accounts hypothesis is the spec's §3 invariant on the
starting state. -/
theorem balances_nonneg_after_ops
    (ops : List Op) (s s' : St) (aid : Nat) (acc : Account)
    (hall : ∀ a ∈ s.accounts, 0 ≤ a.balance)
    (hacc : findById aid s = some acc)
    (hrun : runOps ops s = some s') :
    ∃ acc', findById aid s' = some acc' ∧ 0 ≤ acc'.balance := by
  obtain ⟨hids, hnn⟩ := runOps_preserves hrun
  have hsome : (findById aid s').isSome := by
    rw [findById_isSome_iff, hids, ← findById_isSome_iff, hacc]
    rfl
  obtain ⟨acc', hacc'⟩ := Option.isSome_iff_exists.mp hsome
  exact ⟨acc', hacc', hnn hall acc' (findById_mem hacc')⟩

/-- C7 (failing-input evaluation): a registration with a well-formed
email, a 6+ character password and no existing user with that email
persists exactly one new user but answers the 500 server-error response,
not the 201 created response with the generated username that the
route's own OpenAPI documentation promises — the source calls
`createdRes`, which is neither imported nor defined, so the success
path throws and lands in the catch block after `newUser.save()`. -/
theorem register_valid_input_returns_serverError :
    register true "user@example.com" "password123" (fun p => p) 123 []
      = (.serverError, [⟨"user123", "user@example.com", "password123"⟩]) ∧
    (register true "user@example.com" "password123" (fun p => p) 123 []).1
      ≠ .created "user123" ∧
    (register true "user@example.com" "password123" (fun p => p) 123 []).2.length = 1 := by
  refine ⟨by decide, by decide, by decide⟩

theorem transfer_conserves_balance_sum_witness :
    (transfer 10 1 2 75 ⟨[⟨1, 10, 100⟩, ⟨2, 20, 7⟩], []⟩).1
        = .success (⟨1, 10, (100:ℚ) - 75⟩, ⟨2, 20, (7:ℚ) + 75⟩) ∧
    findById 1 (transfer 10 1 2 75 ⟨[⟨1, 10, 100⟩, ⟨2, 20, 7⟩], []⟩).2
        = some ⟨1, 10, (100:ℚ) - 75⟩ ∧
    findById 2 (transfer 10 1 2 75 ⟨[⟨1, 10, 100⟩, ⟨2, 20, 7⟩], []⟩).2
        = some ⟨2, 20, (7:ℚ) + 75⟩ ∧
    ((100:ℚ) - 75) + ((7:ℚ) + 75) = (100:ℚ) + 7 :=
  transfer_conserves_balance_sum 10 1 2 75 ⟨[⟨1, 10, 100⟩, ⟨2, 20, 7⟩], []⟩
    ⟨1, 10, 100⟩ ⟨2, 20, 7⟩
    (by decide)
    (by decide)
    (by norm_num)
    (by norm_num)
    (by norm_num)

theorem self_transfer_adds_amount_witness :
    (transfer 10 1 1 25 ⟨[⟨1, 10, 100⟩, ⟨2, 20, 7⟩], []⟩).1
        = .success (⟨1, 10, (100:ℚ) - 25⟩, ⟨1, 10, (100:ℚ) + 25⟩) ∧
    (findById 1 (transfer 10 1 1 25 ⟨[⟨1, 10, 100⟩, ⟨2, 20, 7⟩], []⟩).2).map Account.balance
        = some ((100:ℚ) + 25) :=
  self_transfer_adds_amount 10 1 25 ⟨[⟨1, 10, 100⟩, ⟨2, 20, 7⟩], []⟩ ⟨1, 10, 100⟩
    (by decide)
    (by norm_num)
    (by norm_num)
    (by norm_num)

theorem transfer_appends_two_legs_witness :
    (transfer 10 1 2 75 ⟨[⟨1, 10, 100⟩, ⟨2, 20, 7⟩], []⟩).2.txns
        = [{ userId := 10, accountId := 1, type := .transfer, amount := -(75:ℚ) },
           { userId := 20, accountId := 2, type := .transfer, amount := (75:ℚ) }] ∧
    (transfer 10 1 2 75 ⟨[⟨1, 10, 100⟩, ⟨2, 20, 7⟩], []⟩).1
        = .success (⟨1, 10, (100:ℚ) - 75⟩, ⟨2, 20, (7:ℚ) + 75⟩) :=
  transfer_appends_two_legs 10 1 2 75 ⟨[⟨1, 10, 100⟩, ⟨2, 20, 7⟩], []⟩
    ⟨1, 10, 100⟩ ⟨2, 20, 7⟩
    (by decide)
    (by decide)
    (by norm_num)
    (by norm_num)

theorem withdraw_insufficient_funds_no_mutation_witness :
    (withdraw 10 1 150 ⟨[⟨1, 10, 100⟩, ⟨2, 20, 7⟩], []⟩).1 = .insufficientFunds ∧
    (withdraw 10 1 150 ⟨[⟨1, 10, 100⟩, ⟨2, 20, 7⟩], []⟩).2
        = ⟨[⟨1, 10, 100⟩, ⟨2, 20, 7⟩], []⟩ ∧
    (withdraw 10 1 150 ⟨[⟨1, 10, 100⟩, ⟨2, 20, 7⟩], []⟩).2.txns = [] :=
  withdraw_insufficient_funds_no_mutation 10 1 150 ⟨[⟨1, 10, 100⟩, ⟨2, 20, 7⟩], []⟩
    ⟨1, 10, 100⟩
    (by decide)
    (by norm_num)
    (by norm_num)

theorem deposit_updates_or_rejects_witness :
    (deposit 10 1 50 ⟨[⟨1, 10, 100⟩, ⟨2, 20, 7⟩], []⟩).1
        = .success ⟨1, 10, (100:ℚ) + 50⟩ ∧
    findById 1 (deposit 10 1 50 ⟨[⟨1, 10, 100⟩, ⟨2, 20, 7⟩], []⟩).2
        = some ⟨1, 10, (100:ℚ) + 50⟩ ∧
    (deposit 10 1 50 ⟨[⟨1, 10, 100⟩, ⟨2, 20, 7⟩], []⟩).2.txns
        = [{ userId := 10, accountId := 1, type := .deposit, amount := (50:ℚ) }] ∧
    deposit 10 5 50 ⟨[⟨1, 10, 100⟩, ⟨2, 20, 7⟩], []⟩
        = (.notFound "Account not found", ⟨[⟨1, 10, 100⟩, ⟨2, 20, 7⟩], []⟩) := by
  have h1 := (deposit_updates_or_rejects 10 1 50 ⟨[⟨1, 10, 100⟩, ⟨2, 20, 7⟩], []⟩
    (by norm_num)).1 ⟨1, 10, 100⟩ (by decide)
  have h2 := (deposit_updates_or_rejects 10 5 50 ⟨[⟨1, 10, 100⟩, ⟨2, 20, 7⟩], []⟩
    (by norm_num)).2 (by decide)
  exact ⟨h1.1, h1.2.1, h1.2.2, h2⟩

theorem transfer_lookup_rules_witness :
    transfer 10 3 2 75 ⟨[⟨1, 10, 100⟩, ⟨2, 20, 7⟩], []⟩
        = (.notFound "Sender account not found", ⟨[⟨1, 10, 100⟩, ⟨2, 20, 7⟩], []⟩) ∧
    transfer 10 1 5 75 ⟨[⟨1, 10, 100⟩, ⟨2, 20, 7⟩], []⟩
        = (.notFound "Receiver account not found", ⟨[⟨1, 10, 100⟩, ⟨2, 20, 7⟩], []⟩) ∧
    (transfer 10 1 2 75 ⟨[⟨1, 10, 100⟩, ⟨2, 20, 7⟩], []⟩).1
        = .success (⟨1, 10, (100:ℚ) - 75⟩, ⟨2, 20, (7:ℚ) + 75⟩) := by
  refine ⟨?_, ?_, ?_⟩
  · exact (transfer_lookup_rules 10 3 2 75 ⟨[⟨1, 10, 100⟩, ⟨2, 20, 7⟩], []⟩
      (by norm_num)).1 (by decide)
  · exact (transfer_lookup_rules 10 1 5 75 ⟨[⟨1, 10, 100⟩, ⟨2, 20, 7⟩], []⟩
      (by norm_num)).2.1 ⟨1, 10, 100⟩ (by decide)
      (by decide)
  · exact (transfer_lookup_rules 10 1 2 75 ⟨[⟨1, 10, 100⟩, ⟨2, 20, 7⟩], []⟩
      (by norm_num)).2.2 ⟨1, 10, 100⟩ ⟨2, 20, 7⟩
      (by decide)
      (by decide)
      (by norm_num)

theorem deposit_withdraw_roundtrip_witness :
    (deposit 10 1 50 ⟨[⟨1, 10, 100⟩, ⟨2, 20, 7⟩], []⟩).1.isSuccess = true ∧
    (withdraw 10 1 50 (deposit 10 1 50 ⟨[⟨1, 10, 100⟩, ⟨2, 20, 7⟩], []⟩).2).1.isSuccess = true ∧
    (findById 1 (withdraw 10 1 50
        (deposit 10 1 50 ⟨[⟨1, 10, 100⟩, ⟨2, 20, 7⟩], []⟩).2).2).map Account.balance
      = some (100:ℚ) :=
  deposit_withdraw_roundtrip 10 1 50 ⟨[⟨1, 10, 100⟩, ⟨2, 20, 7⟩], []⟩ ⟨1, 10, 100⟩
    (by decide)
    (by norm_num)
    (by norm_num)

theorem txn_write_failure_keeps_balance_witness :
    ((depositF true 10 1 75 ⟨[⟨1, 10, 100⟩, ⟨2, 20, 7⟩], []⟩).1 = .serverError ∧
     (depositF true 10 1 75 ⟨[⟨1, 10, 100⟩, ⟨2, 20, 7⟩], []⟩).2.txns = [] ∧
     findById 1 (depositF true 10 1 75 ⟨[⟨1, 10, 100⟩, ⟨2, 20, 7⟩], []⟩).2
        = some ⟨1, 10, (100:ℚ) + 75⟩) ∧
    ((withdrawF true 10 1 75 ⟨[⟨1, 10, 100⟩, ⟨2, 20, 7⟩], []⟩).1 = .serverError ∧
     (withdrawF true 10 1 75 ⟨[⟨1, 10, 100⟩, ⟨2, 20, 7⟩], []⟩).2.txns = [] ∧
     findById 1 (withdrawF true 10 1 75 ⟨[⟨1, 10, 100⟩, ⟨2, 20, 7⟩], []⟩).2
        = some ⟨1, 10, (100:ℚ) - 75⟩) ∧
    ((transferF true 10 1 2 75 ⟨[⟨1, 10, 100⟩, ⟨2, 20, 7⟩], []⟩).1 = .serverError ∧
     (transferF true 10 1 2 75 ⟨[⟨1, 10, 100⟩, ⟨2, 20, 7⟩], []⟩).2.txns = [] ∧
     findById 1 (transferF true 10 1 2 75 ⟨[⟨1, 10, 100⟩, ⟨2, 20, 7⟩], []⟩).2
        = some ⟨1, 10, (100:ℚ) - 75⟩ ∧
     findById 2 (transferF true 10 1 2 75 ⟨[⟨1, 10, 100⟩, ⟨2, 20, 7⟩], []⟩).2
        = some ⟨2, 20, (7:ℚ) + 75⟩) := by
  have h := txn_write_failure_keeps_balance 10 1 2 75 ⟨[⟨1, 10, 100⟩, ⟨2, 20, 7⟩], []⟩
    (by norm_num)
  exact ⟨h.1 ⟨1, 10, 100⟩ (by decide),
         h.2.1 ⟨1, 10, 100⟩ (by decide) (by norm_num),
         h.2.2 ⟨1, 10, 100⟩ ⟨2, 20, 7⟩ (by decide)
           (by decide) (by norm_num) (by norm_num)⟩

theorem balances_nonneg_after_ops_witness :
    ∃ acc', findById 1 ⟨[⟨1, 10, (100:ℚ) + 50⟩, ⟨2, 20, 7⟩],
        [{ userId := 10, accountId := 1, type := .deposit, amount := (50:ℚ) }]⟩ = some acc' ∧
      0 ≤ acc'.balance :=
  balances_nonneg_after_ops [.deposit 10 1 50] ⟨[⟨1, 10, 100⟩, ⟨2, 20, 7⟩], []⟩
    ⟨[⟨1, 10, (100:ℚ) + 50⟩, ⟨2, 20, 7⟩],
     [{ userId := 10, accountId := 1, type := .deposit, amount := (50:ℚ) }]⟩
    1 ⟨1, 10, 100⟩
    (by intro a ha; simp only [List.mem_cons, List.not_mem_nil, or_false] at ha
        rcases ha with rfl | rfl <;> norm_num)
    (by decide)
    (by norm_num [runOps, applyOp, deposit, depositF, findOwned, List.find?,
          saveAccount, saveTxn, Resp.isSuccess])


end TMS
